import Mathlib

/-!
Verification of the fallback hasher of the aHash repository
(src/fallback_hash.rs) against its natural-language specification.

The embedding models 64-bit machine words as natural numbers that are
reduced modulo 2 ^ 64 exactly where the Rust code wraps
(wrapping_mul, rotate_left, casts).  Byte sequences are lists of
natural numbers below 256.  The byte-to-integer conversion utility
(crate::convert) is not part of the provided source file; following
the specification it converts little-endian.
-/

/-- The fixed multiplier, pulled from a 64 bit LCG (fallback_hash.rs line 9). -/
def MULTIPLE : Nat := 6364136223846793005

/-- Rotate the low 64 bits of x left by n (semantics of u64 rotate_left for n less than 64):
the low 64 - n bits move up by n places and the top n bits wrap to the bottom. -/
def rotl64 (x n : Nat) : Nat := x % 2 ^ (64 - n) * 2 ^ n + x / 2 ^ (64 - n)

/-- The mixing function of fallback_hash.rs lines 85-88:
(data.wrapping_mul(MULTIPLE).rotate_left(17) xor key).wrapping_mul(MULTIPLE). -/
def hash (data key : Nat) : Nat :=
  (rotl64 (data * MULTIPLE % 2 ^ 64) 17 ^^^ key) * MULTIPLE % 2 ^ 64

/-- Hasher state: a running buffer and an immutable key (fallback_hash.rs lines 24-28). -/
structure AHasher where
  buffer : Nat
  key : Nat
  deriving DecidableEq

namespace AHasher

/-- Explicit constructor (fallback_hash.rs lines 79-82). -/
def new_with_keys (key0 key1 : Nat) : AHasher := { buffer := key0, key := key1 }

/-- write_u8 (fallback_hash.rs lines 93-96); the cast of a u8 to u64 is the
identity on naturals below 2 ^ 8. -/
def write_u8 (s : AHasher) (i : Nat) : AHasher :=
  { buffer := hash (s.buffer ^^^ i) s.key, key := s.key }

/-- write_u16 (fallback_hash.rs lines 98-101). -/
def write_u16 (s : AHasher) (i : Nat) : AHasher :=
  { buffer := hash (s.buffer ^^^ i) s.key, key := s.key }

/-- write_u32 (fallback_hash.rs lines 103-106). -/
def write_u32 (s : AHasher) (i : Nat) : AHasher :=
  { buffer := hash (s.buffer ^^^ i) s.key, key := s.key }

/-- write_u64 (fallback_hash.rs lines 108-111). -/
def write_u64 (s : AHasher) (i : Nat) : AHasher :=
  { buffer := hash (s.buffer ^^^ i) s.key, key := s.key }

/-- write_u128 (fallback_hash.rs lines 113-118).  The conversion of a u128 to
an array of two u64 words is Modelled from the spec: crate::convert is not in
the provided source, and section 4.3 of the specification fixes the split as
low 64 bits first, high 64 bits second. -/
def write_u128 (s : AHasher) (i : Nat) : AHasher :=
  let d0 := i % 2 ^ 64
  let d1 := i / 2 ^ 64 % 2 ^ 64
  let b1 := hash (s.buffer ^^^ d0) s.key
  { buffer := hash (b1 ^^^ d1) s.key, key := s.key }

/-- write_usize (fallback_hash.rs lines 120-123): the cast i as u64 is the
identity on a 64-bit platform, so it delegates directly to write_u64. -/
def write_usize (s : AHasher) (i : Nat) : AHasher := write_u64 s i

/-- finish (fallback_hash.rs lines 155-158): a pure projection of the state,
so by its very type it cannot mutate buffer or key. -/
def finish (s : AHasher) : Nat := hash s.buffer s.key

end AHasher

/-- Little-endian interpretation of a byte list as an unsigned integer.
Modelled from the spec: the conversion utility crate::convert is not in the
provided source; section 6 of the specification fixes the byte order as
little-endian for every width. -/
def leBytes : List Nat → Nat
  | [] => 0
  | b :: rest => b + 256 * leBytes rest

/-- The 8-byte chunk loop of write (fallback_hash.rs lines 129-134): while at
least 8 bytes remain, absorb them as a little-endian u64 through the mixing
function; returns the buffer and the remaining bytes. -/
def hashChunks (buffer key : Nat) : List Nat → Nat × List Nat
  | b0 :: b1 :: b2 :: b3 :: b4 :: b5 :: b6 :: b7 :: rest =>
      hashChunks (hash (buffer ^^^ leBytes [b0, b1, b2, b3, b4, b5, b6, b7]) key) key rest
  | data => (buffer, data)

/-- Last tail step of write (fallback_hash.rs lines 149-152): if a byte
remains, xor it in and rotate left by 8. -/
def tail1 (buffer : Nat) (data : List Nat) : Nat :=
  match data with
  | b0 :: _ => rotl64 (buffer ^^^ b0) 8
  | _ => buffer

/-- Two-byte tail step of write (fallback_hash.rs lines 142-148) followed by
the one-byte step. -/
def tail2 (buffer : Nat) (data : List Nat) : Nat :=
  match data with
  | b0 :: b1 :: rest => tail1 (rotl64 (buffer ^^^ leBytes [b0, b1]) 16) rest
  | _ => tail1 buffer data

/-- Four-byte tail step of write (fallback_hash.rs lines 135-141) followed by
the later steps. -/
def tail4 (buffer : Nat) (data : List Nat) : Nat :=
  match data with
  | b0 :: b1 :: b2 :: b3 :: rest => tail2 (rotl64 (buffer ^^^ leBytes [b0, b1, b2, b3]) 32) rest
  | _ => tail2 buffer data

/-- Bulk byte absorption write (fallback_hash.rs lines 125-154): record the
length up front, run the 8-byte chunk loop, fold the tail, then absorb the
length through the mixing function. -/
def AHasher.write (s : AHasher) (input : List Nat) : AHasher :=
  let r := hashChunks s.buffer s.key input
  { buffer := hash (tail4 r.1 r.2 ^^^ input.length % 2 ^ 64) s.key, key := s.key }

/-- The mixing function exactly as the specification words it (section 4.1):
multiply by M mod 2 ^ 64, rotate left 17, xor the key, multiply by M mod 2 ^ 64. -/
def mixSpec (data key : Nat) : Nat :=
  (rotl64 (data * MULTIPLE % 2 ^ 64) 17 ^^^ key) * MULTIPLE % 2 ^ 64

/-- The chunk loop as the specification words it: while at least 8 bytes
remain, absorb the next 8 as a little-endian u64 and advance. -/
def writeSpecLoop (buffer key : Nat) (data : List Nat) : Nat × List Nat :=
  if _h : 8 ≤ data.length then
    writeSpecLoop (hash (buffer ^^^ leBytes (data.take 8)) key) key (data.drop 8)
  else
    (buffer, data)
termination_by data.length
decreasing_by simp only [List.length_drop]; omega

/-- First conditional tail step as the specification words it: if at least 4
bytes remain, xor the little-endian u32 and rotate left 32, advancing 4 bytes. -/
def specStep4 (p : Nat × List Nat) : Nat × List Nat :=
  if 4 ≤ p.2.length then (rotl64 (p.1 ^^^ leBytes (p.2.take 4)) 32, p.2.drop 4) else p

/-- Second conditional tail step as the specification words it: if at least 2
bytes then remain, xor the little-endian u16 and rotate left 16, advancing 2 bytes. -/
def specStep2 (p : Nat × List Nat) : Nat × List Nat :=
  if 2 ≤ p.2.length then (rotl64 (p.1 ^^^ leBytes (p.2.take 2)) 16, p.2.drop 2) else p

/-- Third conditional tail step as the specification words it: if one byte
then remains, xor it and rotate left 8. -/
def specStep1 (p : Nat × List Nat) : Nat :=
  if 1 ≤ p.2.length then rotl64 (p.1 ^^^ leBytes (p.2.take 1)) 8 else p.1

/-- The tail cascade as the specification words it: the three conditional
steps applied in sequence to the shrinking remainder. -/
def writeSpecTail (buffer : Nat) (data : List Nat) : Nat :=
  specStep1 (specStep2 (specStep4 (buffer, data)))

/-- Bulk byte absorption exactly as claim C1 words it: length up front, chunk
loop, tail cascade, terminating length absorption. -/
def writeSpec (s : AHasher) (input : List Nat) : AHasher :=
  let r := writeSpecLoop s.buffer s.key input
  { buffer := hash (writeSpecTail r.1 r.2 ^^^ input.length % 2 ^ 64) s.key, key := s.key }

/-- Unfolding equation of the first specification tail step on at least 4 bytes. -/
theorem specStep4_cons (buffer b0 b1 b2 b3 : Nat) (rest : List Nat) :
    specStep4 (buffer, b0 :: b1 :: b2 :: b3 :: rest)
      = (rotl64 (buffer ^^^ leBytes [b0, b1, b2, b3]) 32, rest) := by
  unfold specStep4
  rw [if_pos (by simp)]
  simp [leBytes]

/-- The first specification tail step skips remainders shorter than 4 bytes. -/
theorem specStep4_short (p : Nat × List Nat) (h : p.2.length < 4) : specStep4 p = p := by
  unfold specStep4
  rw [if_neg (by omega)]

/-- Unfolding equation of the second specification tail step on at least 2 bytes. -/
theorem specStep2_cons (buffer b0 b1 : Nat) (rest : List Nat) :
    specStep2 (buffer, b0 :: b1 :: rest) = (rotl64 (buffer ^^^ leBytes [b0, b1]) 16, rest) := by
  unfold specStep2
  rw [if_pos (by simp)]
  simp [leBytes]

/-- The second specification tail step skips remainders shorter than 2 bytes. -/
theorem specStep2_short (p : Nat × List Nat) (h : p.2.length < 2) : specStep2 p = p := by
  unfold specStep2
  rw [if_neg (by omega)]

/-- Unfolding equation of the third specification tail step on at least 1 byte. -/
theorem specStep1_cons (buffer b0 : Nat) (rest : List Nat) :
    specStep1 (buffer, b0 :: rest) = rotl64 (buffer ^^^ b0) 8 := by
  unfold specStep1
  rw [if_pos (by simp)]
  simp [leBytes]

/-- The third specification tail step skips an empty remainder. -/
theorem specStep1_nil (buffer : Nat) : specStep1 (buffer, []) = buffer := by
  unfold specStep1
  rw [if_neg (by simp)]

/-- The code chunk loop agrees with the loop as the specification words it. -/
theorem hashChunks_eq_loop : ∀ (buffer key : Nat) (data : List Nat),
    hashChunks buffer key data = writeSpecLoop buffer key data
  | buffer, key, [] => by rw [writeSpecLoop, dif_neg (by simp)]; rfl
  | buffer, key, [b0] => by rw [writeSpecLoop, dif_neg (by simp)]; rfl
  | buffer, key, [b0, b1] => by rw [writeSpecLoop, dif_neg (by simp)]; rfl
  | buffer, key, [b0, b1, b2] => by rw [writeSpecLoop, dif_neg (by simp)]; rfl
  | buffer, key, [b0, b1, b2, b3] => by rw [writeSpecLoop, dif_neg (by simp)]; rfl
  | buffer, key, [b0, b1, b2, b3, b4] => by rw [writeSpecLoop, dif_neg (by simp)]; rfl
  | buffer, key, [b0, b1, b2, b3, b4, b5] => by rw [writeSpecLoop, dif_neg (by simp)]; rfl
  | buffer, key, [b0, b1, b2, b3, b4, b5, b6] => by rw [writeSpecLoop, dif_neg (by simp)]; rfl
  | buffer, key, b0 :: b1 :: b2 :: b3 :: b4 :: b5 :: b6 :: b7 :: rest => by
      rw [writeSpecLoop, dif_pos (by simp only [List.length_cons]; omega)]
      exact hashChunks_eq_loop (hash (buffer ^^^ leBytes [b0, b1, b2, b3, b4, b5, b6, b7]) key) key rest

/-- The last code tail step agrees with the third conditional step of the
specification cascade. -/
theorem tail1_eq (buffer : Nat) (data : List Nat) : tail1 buffer data = specStep1 (buffer, data) := by
  match data with
  | [] => rw [specStep1_nil]; rfl
  | b0 :: rest => rw [specStep1_cons]; rfl

/-- The last two code tail steps agree with the last two conditional steps of
the specification cascade. -/
theorem tail2_eq (buffer : Nat) (data : List Nat) :
    tail2 buffer data = specStep1 (specStep2 (buffer, data)) := by
  match data with
  | [] => rw [specStep2_short _ (by simp)]; exact tail1_eq buffer []
  | [b0] => rw [specStep2_short _ (by simp)]; exact tail1_eq buffer [b0]
  | b0 :: b1 :: rest => rw [specStep2_cons]; exact tail1_eq (rotl64 (buffer ^^^ leBytes [b0, b1]) 16) rest

/-- The code tail folding agrees with the full specification cascade. -/
theorem tail4_eq (buffer : Nat) (data : List Nat) :
    tail4 buffer data = writeSpecTail buffer data := by
  unfold writeSpecTail
  match data with
  | [] => rw [specStep4_short _ (by simp)]; exact tail2_eq buffer []
  | [b0] => rw [specStep4_short _ (by simp)]; exact tail2_eq buffer [b0]
  | [b0, b1] => rw [specStep4_short _ (by simp)]; exact tail2_eq buffer [b0, b1]
  | [b0, b1, b2] => rw [specStep4_short _ (by simp)]; exact tail2_eq buffer [b0, b1, b2]
  | b0 :: b1 :: b2 :: b3 :: rest =>
      rw [specStep4_cons]; exact tail2_eq (rotl64 (buffer ^^^ leBytes [b0, b1, b2, b3]) 32) rest

/-- C1: for every byte sequence, write records the length up front, absorbs
8-byte chunks as little-endian u64 values through the mixing function,
applies the non-exclusive 4/2/1-byte xor-rotate cascade to the remainder, and
always terminates with buffer := mix(buffer xor length, key): the code write
equals the algorithm exactly as the claim words it. -/
theorem write_eq_writeSpec (s : AHasher) (input : List Nat) :
    AHasher.write s input = writeSpec s input := by
  simp only [AHasher.write, writeSpec]
  rw [hashChunks_eq_loop, tail4_eq]

/-- C2: the mixing function is pure and deterministic (it is a function of
its two arguments alone) and computes exactly
(((data * M mod 2 ^ 64) rotateLeft 17) xor key) * M mod 2 ^ 64 with
M = 6364136223846793005, which is the formula mixSpec transcribed from the
specification. -/
theorem hash_eq_mixSpec : ∀ data key : Nat, hash data key = mixSpec data key :=
  fun _ _ => rfl

/-- C3: each primitive absorption of width 8, 16, 32 and 64 zero-extends its
argument (the identity on naturals below the width bound) and replaces the
buffer by mix(buffer xor value, key) while leaving the key unchanged, and
write_usize is identical to the 64-bit rule on the zero-extended value. -/
theorem primitive_absorption_spec (s : AHasher) (v : Nat) :
    (v < 2 ^ 8 → s.write_u8 v = { buffer := hash (s.buffer ^^^ v) s.key, key := s.key }) ∧
    (v < 2 ^ 16 → s.write_u16 v = { buffer := hash (s.buffer ^^^ v) s.key, key := s.key }) ∧
    (v < 2 ^ 32 → s.write_u32 v = { buffer := hash (s.buffer ^^^ v) s.key, key := s.key }) ∧
    (v < 2 ^ 64 → s.write_u64 v = { buffer := hash (s.buffer ^^^ v) s.key, key := s.key }) ∧
    (v < 2 ^ 64 → s.write_usize v = s.write_u64 v) :=
  ⟨fun _ => rfl, fun _ => rfl, fun _ => rfl, fun _ => rfl, fun _ => rfl⟩

/-- Witness for C3 at the concrete state (3, 4) and value 5. -/
theorem primitive_absorption_spec_witness :
    AHasher.write_u8 ⟨3, 4⟩ 5 = { buffer := hash (3 ^^^ 5) 4, key := 4 } ∧
    AHasher.write_u16 ⟨3, 4⟩ 5 = { buffer := hash (3 ^^^ 5) 4, key := 4 } ∧
    AHasher.write_u32 ⟨3, 4⟩ 5 = { buffer := hash (3 ^^^ 5) 4, key := 4 } ∧
    AHasher.write_u64 ⟨3, 4⟩ 5 = { buffer := hash (3 ^^^ 5) 4, key := 4 } ∧
    AHasher.write_usize ⟨3, 4⟩ 5 = AHasher.write_u64 ⟨3, 4⟩ 5 :=
  ⟨(primitive_absorption_spec ⟨3, 4⟩ 5).1 (by decide),
   (primitive_absorption_spec ⟨3, 4⟩ 5).2.1 (by decide),
   (primitive_absorption_spec ⟨3, 4⟩ 5).2.2.1 (by decide),
   (primitive_absorption_spec ⟨3, 4⟩ 5).2.2.2.1 (by decide),
   (primitive_absorption_spec ⟨3, 4⟩ 5).2.2.2.2 (by decide)⟩

/-- C4: finish returns exactly mix(buffer, key) on the current state; being a
pure function of the unmodified state, any number of consecutive finish calls
return this same digest. -/
theorem finish_eq_mix : ∀ s : AHasher, s.finish = hash s.buffer s.key :=
  fun _ => rfl

/-- C5: absorbing a 128-bit value is exactly two sequential 64-bit
absorptions, low 64 bits first, high 64 bits second. -/
theorem write_u128_eq_two_u64 (s : AHasher) (v : Nat) (h : v < 2 ^ 128) :
    s.write_u128 v = (s.write_u64 (v % 2 ^ 64)).write_u64 (v / 2 ^ 64) := by
  have hhi : v / 2 ^ 64 < 2 ^ 64 := Nat.div_lt_of_lt_mul (by norm_num at h ⊢; omega)
  simp only [AHasher.write_u128, AHasher.write_u64, Nat.mod_eq_of_lt hhi]

/-- Witness for C5 at the concrete state (1, 2) and the value 3 * 2 ^ 64 + 7. -/
theorem write_u128_eq_two_u64_witness :
    AHasher.write_u128 ⟨1, 2⟩ (3 * 2 ^ 64 + 7)
      = (AHasher.write_u64 ⟨1, 2⟩ ((3 * 2 ^ 64 + 7) % 2 ^ 64)).write_u64 ((3 * 2 ^ 64 + 7) / 2 ^ 64) :=
  write_u128_eq_two_u64 ⟨1, 2⟩ (3 * 2 ^ 64 + 7) (by norm_num)

/-- C6: write of the empty byte sequence skips the chunk loop and the whole
tail cascade and still runs the terminating step, so the new buffer is
mix(buffer xor 0, key); and it is not a no-op: there is a state whose buffer
changes. -/
theorem write_empty_spec :
    (∀ s : AHasher, s.write [] = { buffer := hash (s.buffer ^^^ 0) s.key, key := s.key }) ∧
    (∃ s : AHasher, (s.write []).buffer ≠ s.buffer) :=
  ⟨fun _ => rfl, ⟨⟨0, 1⟩, by decide⟩⟩

/-- C7: no operation ever changes the key: all seven absorption operations
preserve the key field, and finish, being a pure projection to a digest (its
codomain contains no state), mutates neither buffer nor key. -/
theorem key_never_mutated :
    (∀ (s : AHasher) (v : Nat), (s.write_u8 v).key = s.key) ∧
    (∀ (s : AHasher) (v : Nat), (s.write_u16 v).key = s.key) ∧
    (∀ (s : AHasher) (v : Nat), (s.write_u32 v).key = s.key) ∧
    (∀ (s : AHasher) (v : Nat), (s.write_u64 v).key = s.key) ∧
    (∀ (s : AHasher) (v : Nat), (s.write_u128 v).key = s.key) ∧
    (∀ (s : AHasher) (v : Nat), (s.write_usize v).key = s.key) ∧
    (∀ (s : AHasher) (input : List Nat), (s.write input).key = s.key) ∧
    (∀ s : AHasher, s.finish = hash s.buffer s.key) :=
  ⟨fun _ _ => rfl, fun _ _ => rfl, fun _ _ => rfl, fun _ _ => rfl,
   fun _ _ => rfl, fun _ _ => rfl, fun _ _ => rfl, fun _ => rfl⟩

/-- C9: bulk byte absorption is not repeated single-byte absorption: at the
state (0, 0) and the two bytes 1 and 2, two write_u8 calls and one write call
produce different states and different digests. -/
theorem bulk_differs_from_bytewise :
    (AHasher.write_u8 (AHasher.write_u8 ⟨0, 0⟩ 1) 2 ≠ AHasher.write ⟨0, 0⟩ [1, 2]) ∧
    (AHasher.write_u8 (AHasher.write_u8 ⟨0, 0⟩ 1) 2).finish ≠ (AHasher.write ⟨0, 0⟩ [1, 2]).finish := by
  constructor
  · decide
  · decide

/-- C10: primitive absorptions of equal numeric values are indistinguishable
across widths: a value below 2 ^ 8 gives the same state through write_u8,
write_u16, write_u32 and write_u64, a value below 2 ^ 16 through write_u16,
write_u32 and write_u64, and a value below 2 ^ 32 through write_u32 and
write_u64. -/
theorem widths_not_domain_separated (s : AHasher) (v : Nat) :
    (v < 2 ^ 8 → s.write_u8 v = s.write_u16 v ∧ s.write_u8 v = s.write_u32 v ∧ s.write_u8 v = s.write_u64 v) ∧
    (v < 2 ^ 16 → s.write_u16 v = s.write_u32 v ∧ s.write_u16 v = s.write_u64 v) ∧
    (v < 2 ^ 32 → s.write_u32 v = s.write_u64 v) :=
  ⟨fun _ => ⟨rfl, rfl, rfl⟩, fun _ => ⟨rfl, rfl⟩, fun _ => rfl⟩

/-- Witness for C10 at the concrete state (10, 20) and value 7. -/
theorem widths_not_domain_separated_witness :
    (AHasher.write_u8 ⟨10, 20⟩ 7 = AHasher.write_u16 ⟨10, 20⟩ 7 ∧
     AHasher.write_u8 ⟨10, 20⟩ 7 = AHasher.write_u32 ⟨10, 20⟩ 7 ∧
     AHasher.write_u8 ⟨10, 20⟩ 7 = AHasher.write_u64 ⟨10, 20⟩ 7) ∧
    (AHasher.write_u16 ⟨10, 20⟩ 7 = AHasher.write_u32 ⟨10, 20⟩ 7 ∧
     AHasher.write_u16 ⟨10, 20⟩ 7 = AHasher.write_u64 ⟨10, 20⟩ 7) ∧
    AHasher.write_u32 ⟨10, 20⟩ 7 = AHasher.write_u64 ⟨10, 20⟩ 7 :=
  ⟨(widths_not_domain_separated ⟨10, 20⟩ 7).1 (by decide),
   (widths_not_domain_separated ⟨10, 20⟩ 7).2.1 (by decide),
   (widths_not_domain_separated ⟨10, 20⟩ 7).2.2 (by decide)⟩

/-- The multiplier is coprime to 2 ^ 64 (it is odd). -/
theorem gcd_two_pow_MULTIPLE : Nat.gcd (2 ^ 64) MULTIPLE = 1 := by decide

/-- Multiplication by the multiplier modulo 2 ^ 64 is injective on 64-bit values. -/
theorem mulM_cancel {a b : Nat} (ha : a < 2 ^ 64) (hb : b < 2 ^ 64)
    (h : a * MULTIPLE % 2 ^ 64 = b * MULTIPLE % 2 ^ 64) : a = b := by
  have hmod : a ≡ b [MOD 2 ^ 64] := Nat.ModEq.cancel_right_of_coprime gcd_two_pow_MULTIPLE h
  unfold Nat.ModEq at hmod
  rwa [Nat.mod_eq_of_lt ha, Nat.mod_eq_of_lt hb] at hmod

/-- Rotation left by 17 keeps 64-bit values within 64 bits. -/
theorem rotl17_lt {x : Nat} (hx : x < 2 ^ 64) : rotl64 x 17 < 2 ^ 64 := by
  unfold rotl64
  norm_num
  omega

/-- Rotation left by 17 is injective on 64-bit values. -/
theorem rotl17_inj {x y : Nat} (hx : x < 2 ^ 64) (hy : y < 2 ^ 64)
    (h : rotl64 x 17 = rotl64 y 17) : x = y := by
  unfold rotl64 at h
  norm_num at h
  omega

/-- Xor of two 64-bit values stays within 64 bits. -/
theorem xor_lt64 {a b : Nat} (ha : a < 2 ^ 64) (hb : b < 2 ^ 64) : a ^^^ b < 2 ^ 64 :=
  Nat.bitwise_lt ha hb

/-- Unfolding equation of the mixing function. -/
theorem hash_apply (data key : Nat) :
    hash data key = (rotl64 (data * MULTIPLE % 2 ^ 64) 17 ^^^ key) * MULTIPLE % 2 ^ 64 := rfl

/-- Counterexample to C8 as stated: the key pairs (0, 0) and
(1, rotl64 MULTIPLE 17) are different, yet after the identical (empty)
sequence of absorption calls both instances produce the digest 0. -/
theorem different_keys_equal_digest :
    AHasher.new_with_keys 0 0 ≠ AHasher.new_with_keys 1 (rotl64 MULTIPLE 17) ∧
    (AHasher.new_with_keys 0 0).finish = (AHasher.new_with_keys 1 (rotl64 MULTIPLE 17)).finish := by
  constructor
  · decide
  · decide

/-- C8 amended: if the two 64-bit key pairs differ in exactly one of the two
components, the digests of finish after the identical empty absorption
sequence do differ; pairs differing in both components can collide, as the
counterexample shows. -/
theorem one_component_key_sensitivity :
    (∀ k0 k1 k1' : Nat, k1 < 2 ^ 64 → k1' < 2 ^ 64 → k1 ≠ k1' →
      (AHasher.new_with_keys k0 k1).finish ≠ (AHasher.new_with_keys k0 k1').finish) ∧
    (∀ k0 k0' k1 : Nat, k0 < 2 ^ 64 → k0' < 2 ^ 64 → k1 < 2 ^ 64 → k0 ≠ k0' →
      (AHasher.new_with_keys k0 k1).finish ≠ (AHasher.new_with_keys k0' k1).finish) := by
  constructor
  · intro k0 k1 k1' h1 h1' hne heq
    simp only [AHasher.finish, AHasher.new_with_keys, hash_apply] at heq
    have hr : rotl64 (k0 * MULTIPLE % 2 ^ 64) 17 < 2 ^ 64 :=
      rotl17_lt (Nat.mod_lt _ (by norm_num))
    have hcancel := mulM_cancel (xor_lt64 hr h1) (xor_lt64 hr h1') heq
    exact hne (Nat.xor_right_inj.mp hcancel)
  · intro k0 k0' k1 h0 h0' h1 hne heq
    simp only [AHasher.finish, AHasher.new_with_keys, hash_apply] at heq
    have hr : rotl64 (k0 * MULTIPLE % 2 ^ 64) 17 < 2 ^ 64 :=
      rotl17_lt (Nat.mod_lt _ (by norm_num))
    have hr' : rotl64 (k0' * MULTIPLE % 2 ^ 64) 17 < 2 ^ 64 :=
      rotl17_lt (Nat.mod_lt _ (by norm_num))
    have hcancel := mulM_cancel (xor_lt64 hr h1) (xor_lt64 hr' h1) heq
    have hrot := Nat.xor_left_inj.mp hcancel
    have hmul := rotl17_inj (Nat.mod_lt _ (by norm_num)) (Nat.mod_lt _ (by norm_num)) hrot
    exact hne (mulM_cancel h0 h0' hmul)

/-- Witness for the amended C8 at concrete keys: (0, 0) against (0, 1) and
(0, 0) against (1, 0). -/
theorem one_component_key_sensitivity_witness :
    (AHasher.new_with_keys 0 0).finish ≠ (AHasher.new_with_keys 0 1).finish ∧
    (AHasher.new_with_keys 0 0).finish ≠ (AHasher.new_with_keys 1 0).finish :=
  ⟨one_component_key_sensitivity.1 0 0 1 (by decide) (by decide) (by decide),
   one_component_key_sensitivity.2 0 1 0 (by decide) (by decide) (by decide) (by decide)⟩
